import Mathlib

/-!
# VisionNarrate AI — verification of the pipeline orchestration core

Shallow embedding of `src/services/geminiService.ts` (primary variant, the first
document in the file) together with the grounding construction of the second
variant (cited by the grounding-invariant claim).  External collaborators
(the Gemini/Veo network calls, `Math.random`, timers) are modelled as explicit
outcome streams passed to the embedded functions; everything the repository's
own code computes is translated directly.
-/

namespace VisionNarrate

/-- Log severities, from `types.ts` (`LogEntry.level`). -/
inductive LogLevel
  | INFO
  | DEBUG
  | WARN
  | ERROR
deriving DecidableEq, Repr

/-- UI pipeline states, from `types.ts` (`AppState`, second variant: the one
imported by the primary service). -/
inductive AppState
  | IDLE
  | INGESTION
  | ANALYSIS
  | PLANNING
  | GENERATION
  | ASSEMBLY
  | SUCCESS
  | ERROR
  | FORENSIC
deriving DecidableEq, Repr

/-- A log record as built by `addLog` in `runVisionNarratePipeline`
(timestamp and the optional artifact payload are environment data and are not
needed by any claim; `activeTier` is the tier string of
`LLM_FALLBACK_CHAIN[currentModelIndex]` at emission time). -/
structure LogRec where
  level : LogLevel
  message : String
  source : String
  activeTier : String
deriving DecidableEq, Repr

/-- Static model catalogue entry, from `LLMModelInfo` in `types.ts`. -/
structure LLMModelInfo where
  id : String
  name : String
  tier : String
  contextWindow : Nat
  provider : String
deriving DecidableEq, Repr

/-- The fallback chain of the primary service variant (lines 53-57). -/
def LLM_FALLBACK_CHAIN : List LLMModelInfo :=
  [⟨"gemini-3-pro-preview", "Gemini 3 Pro", "TIER_0", 128000, "GEMINI"⟩,
   ⟨"gemini-3-flash-preview", "Gemini 3 Flash", "TIER_1", 1000000, "GEMINI"⟩,
   ⟨"gemini-flash-lite-latest", "Gemini Flash Lite", "TIER_2", 1000000, "GEMINI"⟩]

/-- The tier string `LLM_FALLBACK_CHAIN[i].tier` (empty when out of range, which the
source never does). -/
def tierOf (i : Nat) : String :=
  ((LLM_FALLBACK_CHAIN.get? i).map (·.tier)).getD ""

/-- The display name `LLM_FALLBACK_CHAIN[i].name`. -/
def modelNameOf (i : Nat) : String :=
  ((LLM_FALLBACK_CHAIN.get? i).map (·.name)).getD ""

/-! ## Backoff Executor — `retryWithBackoff` (lines 19-43)

The task passed to `retryWithBackoff` is an external call; one invocation of
the executor is therefore driven by a stream `outcome : Nat → TaskOutcome`
giving the result of attempt `i`, and a stream `jitter : Nat → Nat` giving the
value of `Math.random() * 1000` drawn before the wait after attempt `i`
(the real draw lies in `[0, 1000)`; theorems take the bound as a hypothesis). -/

/-- Result of one attempt of the wrapped task: a value, or an error whose
message does (`isRateLimit = true`) or does not contain "429" /
"RESOURCE_EXHAUSTED". -/
inductive TaskOutcome
  | ok (value : String)
  | err (isRateLimit : Bool)
deriving DecidableEq, Repr

/-- Trace of one `retryWithBackoff` invocation: the propagated result
(`Except.error (some i)` = the error of attempt `i` is re-thrown;
`Except.error none` = the final `throw lastError` fired with no attempt made),
the number of task invocations, and the backoff delays waited, in order. -/
structure BackoffRun where
  result : Except (Option Nat) String
  attempts : Nat
  delays : List Nat
deriving Repr

/-- The `for` loop of `retryWithBackoff`, from attempt `i` on.  `lastErr`
models the `lastError` variable (the index of the attempt that produced it). -/
def retryGo (outcome : Nat → TaskOutcome) (jitter : Nat → Nat)
    (maxRetries initialDelay : Nat) (i : Nat) (lastErr : Option Nat)
    (acc : List Nat) : BackoffRun :=
  if _h : i < maxRetries then
    match outcome i with
    | .ok v => ⟨.ok v, i + 1, acc⟩
    | .err rl =>
      if rl ∧ i < maxRetries - 1 then
        retryGo outcome jitter maxRetries initialDelay (i + 1) (some i)
          (acc ++ [initialDelay * 2 ^ i + jitter i])
      else ⟨.error (some i), i + 1, acc⟩
  else
    ⟨.error lastErr, i, acc⟩
termination_by maxRetries - i

/-- Models `retryWithBackoff(task, addLog, maxRetries, initialDelay)`; the defaults in
the source are `maxRetries = 3`, `initialDelay = 2000`. -/
def retryWithBackoff (outcome : Nat → TaskOutcome) (jitter : Nat → Nat)
    (maxRetries initialDelay : Nat) : BackoffRun :=
  retryGo outcome jitter maxRetries initialDelay 0 none []

/-! ## Model Fallback Router — `UnifiedLLM.execute` (lines 62-112)

One `execute` invocation is driven by `tierOutcome : Nat → Option String`:
`some text` when tier `i`'s retry-wrapped model call eventually returns
`text`, `none` when that tier exhausts all its backoff attempts and the error
escapes `retryWithBackoff`; `errMsg i` is the message of the error tier `i`
threw in that case.  The per-attempt structure inside a tier is the
`retryWithBackoff` model above, and the per-attempt RATE_LIMITER WARN quota
entries it may emit (line 35) belong to that model's trace; the log list here
holds the entries `execute` itself emits. -/

/-- Trace of one `UnifiedLLM.execute` invocation: the value of the module-level
`currentModelIndex` after the call, the returned text or thrown error message,
the tier indices attempted in order, and the log entries emitted. -/
structure ExecRun where
  cursor : Nat
  result : Except String String
  calls : List Nat
  logs : List LogRec
deriving Repr

/-- The `DEBUG` routing log emitted before calling tier `i` (line 74). -/
def mkRoutingLog (i : Nat) : LogRec :=
  ⟨.DEBUG, "Routing to " ++ modelNameOf i ++ " (" ++ tierOf i ++ ")",
   "LLM_ORCHESTRATOR", tierOf i⟩

/-- The `INFO` success log emitted when tier `i` answers (line 95). -/
def mkSuccessLog (i : Nat) : LogRec :=
  ⟨.INFO, "Successful execution with " ++ modelNameOf i, "LLM_ORCHESTRATOR",
   tierOf i⟩

/-- The `WARN` tier-failure log emitted when tier `i` exhausts its backoff
attempts (line 106). -/
def mkTierFailLog (i : Nat) (msg : String) : LogRec :=
  ⟨.WARN,
   "Architectural failure at Tier " ++ tierOf i ++ " (" ++ modelNameOf i
     ++ "): " ++ msg ++ ". Escalating to fallback tier...",
   "LLM_FALLBACK_MANAGER", tierOf i⟩

/-- The `for` loop of `UnifiedLLM.execute` from tier index `i`, with `cursor`
the current value of `currentModelIndex` and `lastErr` the `lastError`
variable.  `len` is `LLM_FALLBACK_CHAIN.length`. -/
def executeGo (tierOutcome : Nat → Option String) (errMsg : Nat → String)
    (len cursor i : Nat) (lastErr : Option String) : ExecRun :=
  if _h : i < len then
    match tierOutcome i with
    | some t =>
      ⟨i, .ok t, [i], [mkRoutingLog i, mkSuccessLog i]⟩
    | none =>
      let rest := executeGo tierOutcome errMsg len i (i + 1) (some (errMsg i))
      ⟨rest.cursor, rest.result, i :: rest.calls,
       mkRoutingLog i :: mkTierFailLog i (errMsg i) :: rest.logs⟩
  else
    ⟨cursor, .error (lastErr.getD "All LLM architectural tiers exhausted."),
     [], []⟩
termination_by len - i

/-- Models `UnifiedLLM.execute`, starting from the current `currentModelIndex`
value `start`. -/
def execute (tierOutcome : Nat → Option String) (errMsg : Nat → String)
    (start : Nat) : ExecRun :=
  executeGo tierOutcome errMsg LLM_FALLBACK_CHAIN.length start start none

/-! ## `addLog` and progress events (lines 163-176) -/

/-- One invocation of the `onProgress` callback. -/
structure ProgressEvent where
  state : AppState
  message : String
  percent : ℚ
  log : Option LogRec
deriving DecidableEq, Repr

/-- Models `addLog` in `runVisionNarratePipeline`: builds the entry (tagged with the
tier of `currentModelIndex`), appends it to `logs`, and fires `onProgress`.
Every append to `logs` in the pipeline goes through this function.  Returns
the new log list and the list of `onProgress` invocations it makes. -/
def addLogModel (cursor : Nat) (level : LogLevel) (message source : String)
    (logs : List LogRec) : List LogRec × List ProgressEvent :=
  let entry : LogRec := ⟨level, message, source, tierOf cursor⟩
  (logs ++ [entry], [⟨.INGESTION, message, 0, some entry⟩])

/-- A direct stage-transition `onProgress` call made by the orchestrator (lines
181, 197, 239, 258, 292, 345): carries a stage-accurate state and percent and
no log entry. -/
def mkStageEvent (state : AppState) (message : String) (percent : ℚ) :
    ProgressEvent :=
  ⟨state, message, percent, none⟩

/-- The six direct stage-transition calls of the primary pipeline (lines 181,
197, 239, 258, 292, 345), the in-loop progress one parameterized by the
loop's counters (line 292: `20 + Math.min(75, accumulated / target * 75)`). -/
def stageTransitionEvents (accumulated target : Nat) : List ProgressEvent :=
  [mkStageEvent .ANALYSIS
     "STAGE 1: Loading Manual V-JEPA 2 Grounding Override..." 5,
   mkStageEvent .ANALYSIS "STAGE 1: V-JEPA 2 Grounding Analysis..." 5,
   mkStageEvent .PLANNING "STAGE 2: Narrative Blueprint Construction..." 15,
   mkStageEvent .GENERATION "STAGE 4: Multi-Pass Video Synthesis..." 20,
   mkStageEvent .GENERATION
     ("Expanding Narrative (" ++ toString accumulated ++ "s / "
       ++ toString target ++ "s)...")
     (20 + min 75 ((accumulated : ℚ) / (target : ℚ) * 75)),
   mkStageEvent .ASSEMBLY "STAGE 5: Compiling Final Production Master..." 95]

/-- The `INFO` log appended at the end of the auto-grounding stage (line
230), emitted while `currentModelIndex` still holds its pre-planning value
`cursor`. -/
def groundingDoneLog (cursor : Nat) : LogRec :=
  ⟨.INFO, "V-JEPA 2 Analysis Stage Completed", "V_JE_PA_ENGINE",
   tierOf cursor⟩

/-- All log entries appended by a run that fails in the planning call on the
auto-grounding path: the grounding INFO entry, then the entries of the
failing `execute('CHAPTER_PLAN', ...)` (line 248).  That call sits before the
orchestrator's `try` block (line 265), so its throw propagates out of
`runVisionNarratePipeline` without any further log entry. -/
def planningFailureLogs (o : Nat → Option String) (e : Nat → String)
    (start : Nat) : List LogRec :=
  groundingDoneLog start :: (execute o e start).logs

/-! ## Response Normalizer — `extractJson` (lines 45-50)

The source works with JavaScript strings; the embedding works on `List Char`.
`String.prototype.trim` strips the ECMAScript WhiteSpace and LineTerminator
characters; the two `replace` calls strip the maximal leading run of
characters other than `{` / `[` and the maximal trailing run of characters
other than `}` / `]`. -/

/-- ECMAScript whitespace as stripped by `String.prototype.trim` (WhiteSpace
plus LineTerminator code points). -/
def jsWhitespace (c : Char) : Bool :=
  [0x9, 0xA, 0xB, 0xC, 0xD, 0x20, 0xA0, 0x1680, 0x2028, 0x2029, 0x202F,
      0x205F, 0x3000, 0xFEFF].contains c.toNat
    || (0x2000 ≤ c.toNat && c.toNat ≤ 0x200A)

/-- Whether `c` is `{` or `[` (the class complemented by the first `replace`). -/
def isOpenBracket (c : Char) : Bool := c = '{' || c = '['

/-- Whether `c` is `}` or `]` (the class complemented by the second `replace`). -/
def isCloseBracket (c : Char) : Bool := c = '}' || c = ']'

/-- Drop the maximal trailing run of characters satisfying `p`
(`replace(/p+$/, '')`). -/
def dropTrailing (p : Char → Bool) (l : List Char) : List Char :=
  (l.reverse.dropWhile p).reverse

/-- Models `String.prototype.trim`. -/
def jsTrim (l : List Char) : List Char :=
  dropTrailing jsWhitespace (l.dropWhile jsWhitespace)

/-- Index of the first occurrence of `pat` as a contiguous run in `l`. -/
def findSub (pat : List Char) : List Char → Option Nat
  | [] => if pat.isPrefixOf ([] : List Char) then some 0 else none
  | c :: rest =>
    if pat.isPrefixOf (c :: rest) then some 0
    else (findSub pat rest).map (· + 1)

/-- The literal `"```json\n"` of the first fence regex. -/
def fenceJsonPat : List Char := "```json\n".toList

/-- The literal `"\n```"` closing the first fence regex. -/
def fenceClosePat : List Char := "\n```".toList

/-- The literal `"```"` of the second fence regex. -/
def ticksPat : List Char := "```".toList

/-- Models `text.match(/```json\n([\s\S]*?)\n```/)`: the capture group of the first
match (the regex engine matches at the first position where the opening
literal is followed by the closing literal; the lazy group stops at the first
closing literal). -/
def matchFenceJson (cs : List Char) : Option (List Char) :=
  match findSub fenceJsonPat cs with
  | none => none
  | some i =>
    let after := cs.drop (i + 8)
    match findSub fenceClosePat after with
    | none => none
    | some j => some (after.take j)

/-- Models `text.match(/```([\s\S]*?)```/)`: the capture group of the first match. -/
def matchFenceAny (cs : List Char) : Option (List Char) :=
  match findSub ticksPat cs with
  | none => none
  | some i =>
    let after := cs.drop (i + 3)
    match findSub ticksPat after with
    | none => none
    | some j => some (after.take j)

/-- Line 48, `jsonMatch ? jsonMatch[1].trim() : text.trim()`: the trimmed
capture group of the preferred fence match, else the trimmed input. -/
def fencedBody (cs : List Char) : List Char :=
  match matchFenceJson cs with
  | some g => jsTrim g
  | none =>
    match matchFenceAny cs with
    | some g => jsTrim g
    | none => jsTrim cs

/-- Line 49, `result.replace(/^[^{[]+/, '').replace(/[^}\]]+$/, '')`. -/
def stripToBrackets (body : List Char) : List Char :=
  dropTrailing (fun c => !(isCloseBracket c))
    (body.dropWhile (fun c => !(isOpenBracket c)))

/-- The body of `extractJson` on character lists. -/
def extractJsonL (cs : List Char) : List Char :=
  if cs = [] then "[]".toList else stripToBrackets (fencedBody cs)

/-- Models `extractJson` (lines 45-50): empty input is rewritten to `"[]"`, a fenced
block is preferred, and the result is trimmed to the outermost bracket
region. -/
def extractJson (s : String) : String := ⟨extractJsonL s.data⟩

/-! ## Speech synthesis — `UnifiedLLM.generateSpeech` (lines 114-136)

The retry-wrapped TTS call is driven by the same attempt-outcome stream as the
Backoff Executor; `ok v` carries the inline audio data already coalesced with
`|| ""` as in the source. -/

/-- Models `UnifiedLLM.generateSpeech(text)`: returns `""` for blank input, the
audio data on success, and `""` when the retry executor's error escapes (the
surrounding `try`/`catch` swallows every failure). -/
def generateSpeech (text : String) (outcome : Nat → TaskOutcome)
    (jitter : Nat → Nat) : String :=
  if jsTrim text.data = [] then ""
  else
    match (retryWithBackoff outcome jitter 3 2000).result with
    | .ok v => v
    | .error _ => ""

/-- Line 381: `finalAudioData ? 'data:audio/pcm;base64,' + data : null`. -/
def finalAudioUrlOf (audioData : String) : Option String :=
  if audioData = "" then none
  else some ("data:audio/pcm;base64," ++ audioData)

/-! ## Narration & Mastering — the `combinedScript` slice (line 362) -/

/-- Line 362, `parsedChapters.slice(0, Math.ceil(accumulatedSeconds / 30) + 1)` applied
to the chapters' narration scripts.  `accumulatedSeconds` is an integer in
every execution (5 plus a multiple of 7), so `Math.ceil` is
`(acc + 29) / 30` in natural division. -/
def narrationSlice (scripts : List String) (accumulatedSeconds : Nat) :
    List String :=
  scripts.take ((accumulatedSeconds + 29) / 30 + 1)

/-- The joined narration, `...map(c => c.narrationScript).join(". ")`. -/
def combinedScript (scripts : List String) (accumulatedSeconds : Nat) :
    String :=
  String.intercalate ". " (narrationSlice scripts accumulatedSeconds)

/-- Written from the spec's words for C5, for comparison with the code: a
prefix share of the chapters proportional to `accumulated / target` (rounded
up), clamped to the number of available chapters. -/
def specProportionalSliceLen (numChapters accumulated target : Nat) : Nat :=
  min numChapters ((numChapters * accumulated + target - 1) / target)

/-! ## Grounding records (primary variant lines 196-237, second variant
lines 515-526) -/

/-- One `scene_graph` entry of the primary variant's auto-analysis (lines
201-218).  The stochastic diagnostics (`importance_calibration`,
`attention_heatmap_id`, `semantic_latent_vector`) are draws of `Math.random`
and are irrelevant to every claim; the deterministic identity fields are
kept. -/
structure SceneRecordV1 where
  scene_id : Nat
  original_filename : String
deriving DecidableEq, Repr

/-- Models `config.recordings.map((filename, i) => ...)` building `scene_graph` in
the primary variant: one record per recording, no fallback for an empty
list. -/
def sceneGraphV1 (recordings : List String) : List SceneRecordV1 :=
  recordings.enum.map (fun p => ⟨p.1 + 1, p.2⟩)

/-- One grounding record of the second variant (lines 515-526). -/
structure SceneRecordV2 where
  scene_id : Nat
  visual_event : String
  transition : String
  source_artifact : String
deriving DecidableEq, Repr

/-- The second variant's `vJepaMetadata`: map over the recordings, keep the
first three, and push a synthetic default record when the list is empty. -/
def vJepaScenesV2 (productName : String) (recordings : List String) :
    List SceneRecordV2 :=
  let mapped : List SceneRecordV2 :=
    (recordings.enum.map (fun p =>
      ⟨p.1 + 1,
       "UI Event from " ++ p.2 ++ ": " ++ productName ++ " Interface Action",
       if p.1 = 0 then "Static" else "Hard Cut", p.2⟩)).take 3
  if mapped.isEmpty then
    [⟨1, "Synthetic UI Load: " ++ productName, "Initial", "system_default"⟩]
  else mapped

/-! ## Segment Synthesis Chain — the extension loop (lines 290-343)

One iteration of `while (accumulatedSeconds < targetSeconds)` interacts with
the external Veo service (submit + poll, inside `retryWithBackoff`); the
iteration's observable behaviour is classified by the source itself into the
cases below, which drive the embedded step function.  Each iteration's
polling is assumed to resolve: the source has no wall-clock timeout on an
individual external call, so an external operation that never reports `done`
stalls that call — an environment-liveness gap the spec acknowledges,
distinct from the loop logic modelled here. -/

/-- Outcome of one extension iteration's external interaction:
* `success` — the extension operation completed without error (line 331);
* `notReady` — the operation reported an error whose message contains
  "PROCESSED" or "400" (line 322);
* `failure` — any other throw inside the iteration's `try` (a terminal
  operation error, or the retry executor's propagated error, line 335);
* `refLost` — `lastVideoOperation` carries no video reference, so line 298
  throws outside the iteration's `try`/`catch`. -/
inductive ExtOutcome
  | success
  | notReady
  | failure
  | refLost
deriving DecidableEq, Repr

/-- The extension loop's mutable state: `accumulatedSeconds`, `segmentIndex`
and `errorStreak`. -/
structure ChainState where
  accumulatedSeconds : Nat
  segmentIndex : Nat
  errorStreak : Nat
deriving DecidableEq, Repr

/-- Result of one loop iteration: continue looping, break to mastering, or
throw to the orchestrator's catch (fatal). -/
inductive StepResult
  | next (s : ChainState)
  | exitMastering (s : ChainState)
  | exitFatal (s : ChainState)
deriving DecidableEq, Repr

/-- One iteration of the extension loop body (lines 294-342), given the
iteration's external outcome.  On `notReady` with a streak above 15, the
"Backend synchronization failure" throw at line 325 is caught by the same
iteration's `catch` (line 335), which increments the streak a second time and
re-throws since it now exceeds 10.  The `if (accumulatedSeconds >= 1800)
break` at line 342 is skipped by the `continue` of the `notReady` path. -/
def extensionStep (s : ChainState) (o : ExtOutcome) : StepResult :=
  match o with
  | .refLost => .exitFatal s
  | .success =>
    let s' : ChainState := ⟨s.accumulatedSeconds + 7, s.segmentIndex + 1, 0⟩
    if s'.accumulatedSeconds ≥ 1800 then .exitMastering s' else .next s'
  | .notReady =>
    let streak1 := s.errorStreak + 1
    if streak1 > 15 then
      .exitFatal ⟨s.accumulatedSeconds, s.segmentIndex, streak1 + 1⟩
    else .next ⟨s.accumulatedSeconds, s.segmentIndex, streak1⟩
  | .failure =>
    let s' : ChainState := ⟨s.accumulatedSeconds, s.segmentIndex,
      s.errorStreak + 1⟩
    if s'.errorStreak > 10 then .exitFatal s'
    else if s'.accumulatedSeconds ≥ 1800 then .exitMastering s'
    else .next s'

/-- Exit of the whole synthesis chain: `mastering` for the two successful
loop exits (proceeding to STAGE 5), `fatal` for a throw reaching the
orchestrator's catch. -/
inductive ChainExit
  | mastering (s : ChainState)
  | fatal (s : ChainState)
deriving DecidableEq, Repr

/-- The `while (accumulatedSeconds < targetSeconds)` loop (lines 290-343),
driven by the stream of iteration outcomes; iteration `i` observes
`outcomes i`; the branches mirror `extensionStep` one for one.  Totality of
this definition is the claim's termination property: the measure
`(1800 - accumulated) * 17 + (16 - errorStreak)` strictly decreases on every
continuing iteration, for every outcome stream. -/
def extensionLoop (target : Nat) (outcomes : Nat → ExtOutcome)
    (s : ChainState) (i : Nat) : ChainExit :=
  if s.accumulatedSeconds ≥ target then .mastering s
  else
    match outcomes i with
    | .refLost => .fatal s
    | .success =>
      if _hcap : s.accumulatedSeconds + 7 ≥ 1800 then
        .mastering ⟨s.accumulatedSeconds + 7, s.segmentIndex + 1, 0⟩
      else
        extensionLoop target outcomes
          ⟨s.accumulatedSeconds + 7, s.segmentIndex + 1, 0⟩ (i + 1)
    | .notReady =>
      if _hstreak : s.errorStreak + 1 > 15 then
        .fatal ⟨s.accumulatedSeconds, s.segmentIndex, s.errorStreak + 2⟩
      else
        extensionLoop target outcomes
          ⟨s.accumulatedSeconds, s.segmentIndex, s.errorStreak + 1⟩ (i + 1)
    | .failure =>
      if _hstreak : s.errorStreak + 1 > 10 then
        .fatal ⟨s.accumulatedSeconds, s.segmentIndex, s.errorStreak + 1⟩
      else if _hcap : s.accumulatedSeconds ≥ 1800 then
        .mastering ⟨s.accumulatedSeconds, s.segmentIndex, s.errorStreak + 1⟩
      else
        extensionLoop target outcomes
          ⟨s.accumulatedSeconds, s.segmentIndex, s.errorStreak + 1⟩ (i + 1)
termination_by (1800 - s.accumulatedSeconds) * 17 + (16 - s.errorStreak)
decreasing_by all_goals omega

/-- The state entering the extension loop after a successful INIT segment
(lines 287-288): 5 accumulated seconds, segment index 1, no error streak. -/
def initialChainState : ChainState := ⟨5, 1, 0⟩

/-! ## Chapter plan parsing (lines 249-256)

`JSON.parse` is a facility of the JavaScript runtime, modelled here by a
fuel-bounded recursive-descent reader of the strict JSON grammar: values are
`null`, booleans, numbers (kept as raw lexemes — no claim needs their numeric
value), strings (with the standard escapes; surrogate-pair decoding of `\u`
escapes is out of modelled scope), arrays and objects; the whole input must be
consumed up to trailing JSON whitespace.  The fuel `2 * length + 8` dominates
the reader's call depth on every input. -/

/-- The insignificant whitespace accepted between JSON tokens. -/
def isJsonWs (c : Char) : Bool :=
  c = ' ' || c = '\t' || c = '\n' || c = '\r'

/-- A JSON value as produced by `JSON.parse`. -/
inductive JVal
  | jnull
  | jbool (b : Bool)
  | jnum (raw : String)
  | jstr (s : String)
  | jarr (elems : List JVal)
  | jobj (fields : List (String × JVal))
deriving Repr

/-- Value of a hexadecimal digit. -/
def hexVal (c : Char) : Option Nat :=
  if '0' ≤ c ∧ c ≤ '9' then some (c.toNat - '0'.toNat)
  else if 'a' ≤ c ∧ c ≤ 'f' then some (c.toNat - 'a'.toNat + 10)
  else if 'A' ≤ c ∧ c ≤ 'F' then some (c.toNat - 'A'.toNat + 10)
  else none

/-- Body of a JSON string, after the opening quote. -/
def parseStrBody (fuel : Nat) (cs : List Char) (acc : List Char) :
    Option (String × List Char) :=
  match fuel with
  | 0 => none
  | fuel + 1 =>
    match cs with
    | [] => none
    | '"' :: rest => some (⟨acc.reverse⟩, rest)
    | '\\' :: rest =>
      match rest with
      | [] => none
      | e :: rest2 =>
        if e = '"' then parseStrBody fuel rest2 ('"' :: acc)
        else if e = '\\' then parseStrBody fuel rest2 ('\\' :: acc)
        else if e = '/' then parseStrBody fuel rest2 ('/' :: acc)
        else if e = 'b' then parseStrBody fuel rest2 (Char.ofNat 8 :: acc)
        else if e = 'f' then parseStrBody fuel rest2 (Char.ofNat 12 :: acc)
        else if e = 'n' then parseStrBody fuel rest2 ('\n' :: acc)
        else if e = 'r' then parseStrBody fuel rest2 ('\r' :: acc)
        else if e = 't' then parseStrBody fuel rest2 ('\t' :: acc)
        else if e = 'u' then
          match rest2 with
          | a :: b :: c :: d :: rest3 =>
            match hexVal a, hexVal b, hexVal c, hexVal d with
            | some x, some y, some z, some w =>
              parseStrBody fuel rest3
                (Char.ofNat (((x * 16 + y) * 16 + z) * 16 + w) :: acc)
            | _, _, _, _ => none
          | _ => none
        else none
    | c :: rest =>
      if c.toNat < 0x20 then none else parseStrBody fuel rest (c :: acc)

/-- Lexes a JSON number, returning its raw lexeme. -/
def parseNumLex (cs : List Char) : Option (String × List Char) :=
  let (sign, cs1) :=
    match cs with
    | '-' :: r => (['-'], r)
    | _ => (([] : List Char), cs)
  let intDs := cs1.takeWhile Char.isDigit
  let rest1 := cs1.drop intDs.length
  match intDs with
  | [] => none
  | '0' :: _ :: _ => none
  | _ =>
    let (fracDs, rest2) :=
      match rest1 with
      | '.' :: r =>
        let ds := r.takeWhile Char.isDigit
        if ds = [] then (([] : List Char), rest1)
        else ('.' :: ds, r.drop ds.length)
      | _ => (([] : List Char), rest1)
    let (expDs, rest3) :=
      match rest2 with
      | e :: r =>
        if e = 'e' ∨ e = 'E' then
          let (sgn, r2) :=
            match r with
            | s :: rr => if s = '+' ∨ s = '-' then ([s], rr) else (([] : List Char), r)
            | [] => (([] : List Char), r)
          let ds := r2.takeWhile Char.isDigit
          if ds = [] then (([] : List Char), rest2)
          else (e :: (sgn ++ ds), r2.drop ds.length)
        else (([] : List Char), rest2)
      | [] => (([] : List Char), rest2)
    some (⟨sign ++ intDs ++ fracDs ++ expDs⟩, rest3)

mutual

/-- Reads one JSON value. -/
def parseVal (fuel : Nat) (cs : List Char) : Option (JVal × List Char) :=
  match fuel with
  | 0 => none
  | fuel + 1 =>
    match cs.dropWhile isJsonWs with
    | [] => none
    | c :: rest =>
      if c = 'n' then
        if "ull".toList.isPrefixOf rest then some (.jnull, rest.drop 3)
        else none
      else if c = 't' then
        if "rue".toList.isPrefixOf rest then some (.jbool true, rest.drop 3)
        else none
      else if c = 'f' then
        if "alse".toList.isPrefixOf rest then some (.jbool false, rest.drop 4)
        else none
      else if c = '"' then
        match parseStrBody (rest.length + 1) rest [] with
        | some (s, r) => some (.jstr s, r)
        | none => none
      else if c = '[' then
        match rest.dropWhile isJsonWs with
        | ']' :: r => some (.jarr [], r)
        | _ => parseArrItems fuel rest []
      else if c = '{' then
        match rest.dropWhile isJsonWs with
        | '}' :: r => some (.jobj [], r)
        | _ => parseObjItems fuel rest []
      else if c = '-' ∨ c.isDigit then
        match parseNumLex (c :: rest) with
        | some (raw, r) => some (.jnum raw, r)
        | none => none
      else none

/-- Reads the elements of a non-empty JSON array. -/
def parseArrItems (fuel : Nat) (cs : List Char) (acc : List JVal) :
    Option (JVal × List Char) :=
  match fuel with
  | 0 => none
  | fuel + 1 =>
    match parseVal fuel cs with
    | none => none
    | some (v, r) =>
      match r.dropWhile isJsonWs with
      | ',' :: r2 => parseArrItems fuel r2 (v :: acc)
      | ']' :: r2 => some (.jarr (v :: acc).reverse, r2)
      | _ => none

/-- Reads the members of a non-empty JSON object. -/
def parseObjItems (fuel : Nat) (cs : List Char)
    (acc : List (String × JVal)) : Option (JVal × List Char) :=
  match fuel with
  | 0 => none
  | fuel + 1 =>
    match cs.dropWhile isJsonWs with
    | '"' :: rest =>
      match parseStrBody (rest.length + 1) rest [] with
      | none => none
      | some (k, r) =>
        match r.dropWhile isJsonWs with
        | ':' :: r2 =>
          match parseVal fuel r2 with
          | none => none
          | some (v, r3) =>
            match r3.dropWhile isJsonWs with
            | ',' :: r4 => parseObjItems fuel r4 ((k, v) :: acc)
            | '}' :: r4 => some (.jobj ((k, v) :: acc).reverse, r4)
            | _ => none
        | _ => none
    | _ => none

end

/-- Models `JSON.parse`: rejects any input the grammar does not generate. -/
def jsonParse (s : String) : Except Unit JVal :=
  match parseVal (2 * s.data.length + 8) s.data with
  | some (v, rest) =>
    if rest.dropWhile isJsonWs = [] then .ok v else .error ()
  | none => .error ()

/-- Whether a number lexeme denotes zero: its mantissa has no nonzero
digit. -/
def numRawIsZero (raw : String) : Bool :=
  !((raw.data.takeWhile (fun c => c ≠ 'e' ∧ c ≠ 'E')).any
    (fun c => '1' ≤ c ∧ c ≤ '9'))

/-- JavaScript truthiness of a parsed JSON value, as tested by
`rawParsed.chapters || []`. -/
def jsTruthy : JVal → Bool
  | .jnull => false
  | .jbool b => b
  | .jnum raw => !numRawIsZero raw
  | .jstr s => !(s == "")
  | .jarr _ => true
  | .jobj _ => true

/-- Property read on a JavaScript object: the last assignment of a duplicate
key wins, hence lookup over the reversed field list. -/
def jsProp (fields : List (String × JVal)) (key : String) : Option JVal :=
  fields.reverse.lookup key

/-- The static recovery chapter of the `catch` branch (line 255). -/
def fallbackChapterPlan : JVal :=
  .jobj [("title", .jstr "Overview"),
         ("visualIntent", .jstr "Main Interface"),
         ("narrationScript", .jstr "Introducing the core capabilities.")]

/-- Lines 249-256: `JSON.parse(extractJson(plannerResponse))`, then
`Array.isArray(rawParsed) ? rawParsed : (rawParsed.chapters || [])`, with the
`catch` substituting the single static recovery chapter.  A parsed `null`
reaches `rawParsed.chapters`, which throws a `TypeError` caught by the same
`catch`; property access on any other non-object yields `undefined`, hence
`[]`. -/
def plannerChapters (response : String) : JVal :=
  match jsonParse (extractJson response) with
  | .error _ => .jarr [fallbackChapterPlan]
  | .ok (.jarr xs) => .jarr xs
  | .ok .jnull => .jarr [fallbackChapterPlan]
  | .ok (.jobj fields) =>
    match jsProp fields "chapters" with
    | some v => if jsTruthy v then v else .jarr []
    | none => .jarr []
  | .ok _ => .jarr []

/-! ## Theorems -/

/-- When no attempt ever yields a value, the backoff executor ends in an
error (which the caller of `retryWithBackoff` sees as a throw). -/
theorem retryGo_allfail (o : Nat → TaskOutcome) (jit : Nat → Nat) (m d : Nat)
    (hfail : ∀ j v, o j ≠ .ok v) (i : Nat) (e : Option Nat)
    (acc : List Nat) :
    ∃ w, (retryGo o jit m d i e acc).result = .error w := by
  rw [retryGo]
  split
  · rcases ho : o i with v | rl
    · exact absurd ho (hfail i v)
    · simp only [ho]
      split
      · exact retryGo_allfail o jit m d hfail (i + 1) (some i) _
      · exact ⟨some i, rfl⟩
  · exact ⟨e, rfl⟩
termination_by m - i

/-- C6: `generateSpeech` never raises: it is a total function into `String`,
and whenever every attempt of the underlying speech-synthesis call fails, it
returns the empty string; the mastering step then sets `finalAudioUrl` to
`null` (`none`) and the run completes without a run-level failure. -/
theorem claim_C6_speech_failure_is_silent (text : String)
    (o : Nat → TaskOutcome) (jit : Nat → Nat)
    (hfail : ∀ j v, o j ≠ .ok v) :
    generateSpeech text o jit = "" ∧
      finalAudioUrlOf (generateSpeech text o jit) = none := by
  have hspeech : generateSpeech text o jit = "" := by
    unfold generateSpeech
    split
    · rfl
    · obtain ⟨w, hw⟩ := retryGo_allfail o jit 3 2000 hfail 0 none []
      rw [retryWithBackoff, hw]
  exact ⟨hspeech, by rw [hspeech]; rfl⟩

/-- Witness for C6 at a concrete input: a TTS call that always throws a
non-rate-limit error yields an empty audio result and a `none` audio URL. -/
theorem claim_C6_witness :
    generateSpeech "Hello world" (fun _ => .err false) (fun _ => 0) = "" ∧
      finalAudioUrlOf
        (generateSpeech "Hello world" (fun _ => .err false) (fun _ => 0)) =
        none :=
  claim_C6_speech_failure_is_silent "Hello world" (fun _ => .err false)
    (fun _ => 0) (fun _ v h => by cases h)

/-- C5 (amended): the narration text sent to speech synthesis is the
join (". ") of the scripts of the first `⌈accumulatedSeconds / 30⌉ + 1`
chapters, clamped to the number of available chapters; the slice bound does
not depend on `targetDuration` at all (the function takes no target
argument). -/
theorem claim_C5_narration_slice (scripts : List String) (acc : Nat) :
    (narrationSlice scripts acc).length =
        min ((acc + 29) / 30 + 1) scripts.length ∧
      combinedScript scripts acc =
        String.intercalate ". " (scripts.take ((acc + 29) / 30 + 1)) ∧
      narrationSlice scripts acc ++ scripts.drop ((acc + 29) / 30 + 1) =
        scripts :=
  ⟨List.length_take _ _, rfl, List.take_append_drop _ _⟩

/-- Counterexample to C5 as stated: with 10 chapters, 900 accumulated seconds
and an 1800-second target (50 % of target), a share proportional to
`accumulated / target` would synthesize 5 chapters' narration, but the code
slices `ceil(900 / 30) + 1 = 31` chapters, clamped to all 10 — the whole
narration is synthesized for half the footage. -/
theorem counterexample_C5 :
    (narrationSlice ["s1", "s2", "s3", "s4", "s5", "s6", "s7", "s8", "s9",
        "s10"] 900).length ≠ specProportionalSliceLen 10 900 1800 ∧
      (narrationSlice ["s1", "s2", "s3", "s4", "s5", "s6", "s7", "s8", "s9",
        "s10"] 900).length = 10 ∧
      specProportionalSliceLen 10 900 1800 = 5 := by
  refine ⟨?_, rfl, rfl⟩
  decide

/-- C9 (amended): in the second orchestration variant (lines 515-526) the
grounding list always holds at least one record, the synthetic default being
substituted exactly when the recording list is empty.  (The primary variant
has no such substitution — see the counterexample.) -/
theorem claim_C9_grounding_never_empty (productName : String)
    (recordings : List String) :
    1 ≤ (vJepaScenesV2 productName recordings).length ∧
      vJepaScenesV2 productName [] =
        [⟨1, "Synthetic UI Load: " ++ productName, "Initial",
          "system_default"⟩] := by
  constructor
  · unfold vJepaScenesV2
    cases recordings with
    | nil => simp
    | cons a as => simp
  · rfl

/-- Counterexample to C9 as stated: in the primary pipeline variant (lines
196-237), a configuration with an empty recording list produces an empty
`scene_graph` — no synthetic default record is substituted, and the grounding
sequence embedded in the planner prompt is empty. -/
theorem counterexample_C9 :
    sceneGraphV1 [] = [] ∧ (sceneGraphV1 []).length = 0 :=
  ⟨rfl, rfl⟩

/-- C10: every log entry appended during a run goes through `addLog`, which
appends exactly one entry and fires exactly one synchronous `onProgress`
invocation, always tagged `INGESTION` with percent `0` and carrying the
entry, whatever stage is active; the stage-accurate state tags and percent
estimates are delivered only by the orchestrator's direct stage-transition
calls, none of which carries a log entry. -/
theorem claim_C10_addLog_progress (cursor : Nat) (level : LogLevel)
    (message source : String) (logs : List LogRec) :
    (addLogModel cursor level message source logs).2 =
        [⟨.INGESTION, message, 0,
          some ⟨level, message, source, tierOf cursor⟩⟩] ∧
      (addLogModel cursor level message source logs).1 =
        logs ++ [⟨level, message, source, tierOf cursor⟩] ∧
      (∀ ev ∈ (addLogModel cursor level message source logs).2,
        ev.state = .INGESTION ∧ ev.percent = 0 ∧
          ev.log = some ⟨level, message, source, tierOf cursor⟩) ∧
      (∀ acc target : Nat, ∀ ev ∈ stageTransitionEvents acc target,
        ev.log = none) := by
  refine ⟨rfl, rfl, ?_, ?_⟩
  · intro ev hev
    simp only [addLogModel, List.mem_singleton] at hev
    subst hev
    exact ⟨rfl, rfl, rfl⟩
  · intro acc target ev hev
    simp only [stageTransitionEvents, mkStageEvent, List.mem_cons,
      List.mem_singleton, List.not_mem_nil, or_false] at hev
    rcases hev with h | h | h | h | h | h <;> subst h <;> rfl

/-- Witness for C10 at a concrete input: the single progress event fired for
a `WARN` entry logged while the `GENERATION` stage is active still carries the
`INGESTION` tag and percent `0`. -/
theorem claim_C10_witness :
    ∃ ev, ev ∈ (addLogModel 2 LogLevel.WARN "Chain Segment Failure"
        "VEO_INTEGRATOR" []).2 ∧
      ev.state = AppState.INGESTION ∧ ev.percent = 0 := by
  have h := claim_C10_addLog_progress 2 LogLevel.WARN "Chain Segment Failure"
    "VEO_INTEGRATOR" []
  refine ⟨⟨.INGESTION, "Chain Segment Failure", 0,
    some ⟨.WARN, "Chain Segment Failure", "VEO_INTEGRATOR", tierOf 2⟩⟩,
    ?_, ?_, ?_⟩
  · rw [h.1]; exact List.mem_singleton.mpr rfl
  · rfl
  · rfl

/-- The backoff executor never makes more than `maxRetries` attempts. -/
theorem retryGo_attempts (o : Nat → TaskOutcome) (jit : Nat → Nat)
    (m d i : Nat) (e : Option Nat) (acc : List Nat) (hi : i ≤ m) :
    (retryGo o jit m d i e acc).attempts ≤ m := by
  rw [retryGo]
  split
  next h =>
    rcases ho : o i with v | rl <;> simp only [ho]
    · exact h
    · split
      · exact retryGo_attempts o jit m d (i + 1) (some i) _ (by omega)
      · exact h
  next h => exact hi
termination_by m - i

/-- Starting from attempt `i` with the delays of the earlier attempts already
accumulated, the delay list of the whole run is an initial segment of
`k ↦ initialDelay * 2 ^ k + jitter k`. -/
theorem retryGo_delays (o : Nat → TaskOutcome) (jit : Nat → Nat)
    (m d : Nat) (i : Nat) (e : Option Nat) :
    ∃ n, i ≤ n ∧
      (retryGo o jit m d i e
          ((List.range i).map (fun k => d * 2 ^ k + jit k))).delays =
        (List.range n).map (fun k => d * 2 ^ k + jit k) := by
  rw [retryGo]
  split
  next h =>
    rcases ho : o i with v | rl <;> simp only [ho]
    · exact ⟨i, le_refl i, rfl⟩
    · split
      next hc =>
        have key : (List.range i).map (fun k => d * 2 ^ k + jit k) ++
            [d * 2 ^ i + jit i] =
            (List.range (i + 1)).map (fun k => d * 2 ^ k + jit k) := by
          rw [List.range_succ, List.map_append]
          rfl
        rw [key]
        obtain ⟨n, hn, hd⟩ := retryGo_delays o jit m d (i + 1) (some i)
        exact ⟨n, by omega, hd⟩
      next hc => exact ⟨i, le_refl i, rfl⟩
  next h => exact ⟨i, le_refl i, rfl⟩
termination_by m - i

/-- A non-rate-limit failure at attempt `i` (after rate-limit failures at
attempts `i0..i-1`) is propagated immediately: no further attempt, no delay
waited after it. -/
theorem retryGo_immediate (o : Nat → TaskOutcome) (jit : Nat → Nat)
    (m d i0 i : Nat) (e : Option Nat) (acc : List Nat)
    (hle : i0 ≤ i) (him : i < m) (hfail : o i = .err false)
    (hpre : ∀ j, i0 ≤ j → j < i → o j = .err true) :
    (retryGo o jit m d i0 e acc).result = .error (some i) ∧
      (retryGo o jit m d i0 e acc).attempts = i + 1 ∧
      (retryGo o jit m d i0 e acc).delays.length = acc.length + (i - i0) := by
  rw [retryGo]
  split
  next h =>
    by_cases heq : i0 = i
    · subst heq
      simp only [hfail]
      split
      next hc => simp at hc
      next => exact ⟨rfl, rfl, by simp⟩
    · have hi0 : i0 < i := by omega
      have ho : o i0 = .err true := hpre i0 (le_refl i0) hi0
      simp only [ho]
      split
      next hc =>
        have ih := retryGo_immediate o jit m d (i0 + 1) i (some i0)
          (acc ++ [d * 2 ^ i0 + jit i0]) (by omega) him hfail
          (fun j hj1 hj2 => hpre j (by omega) hj2)
        refine ⟨ih.1, ih.2.1, ?_⟩
        rw [ih.2.2, List.length_append]
        simp
        omega
      next hc =>
        exfalso
        simp at hc
        omega
  next h => omega
termination_by i - i0

/-- When every attempt from `i0` to the last one fails with a rate-limit
error, the executor makes all remaining attempts and ends with the error of
attempt `maxRetries - 1`, the last one. -/
theorem retryGo_exhaust (o : Nat → TaskOutcome) (jit : Nat → Nat)
    (m d i0 : Nat) (e : Option Nat) (acc : List Nat) (him : i0 < m)
    (hall : ∀ j, i0 ≤ j → j < m → o j = .err true) :
    (retryGo o jit m d i0 e acc).result = .error (some (m - 1)) ∧
      (retryGo o jit m d i0 e acc).attempts = m := by
  rw [retryGo]
  split
  next h =>
    have ho : o i0 = .err true := hall i0 (le_refl _) him
    simp only [ho]
    split
    next hc =>
      have hlt : i0 + 1 < m := by
        simp at hc
        omega
      exact retryGo_exhaust o jit m d (i0 + 1) (some i0) _ hlt
        (fun j hj1 hj2 => hall j (by omega) hj2)
    next hc =>
      have : i0 = m - 1 := by
        simp at hc
        omega
      refine ⟨by rw [this], ?_⟩
      show i0 + 1 = m
      omega
  next h => omega
termination_by m - i0

/-- C3: for every operation run through the Backoff Executor, the delay
waited after failed attempt `k` — i.e. before retry `k` — is exactly
`initialDelay * 2 ^ k` plus that attempt's jitter draw, hence (the draw being
`Math.random() * 1000 ≤ 1000`) within
`[initialDelay * 2 ^ k, initialDelay * 2 ^ k + 1000]`; the task is attempted
at most `maxRetries` times; a non-rate-limit failure is propagated
immediately with no further retry and no wait; and when every attempt fails
with a rate-limit error, the error of the last attempt is propagated. -/
theorem claim_C3_backoff_executor (o : Nat → TaskOutcome) (jit : Nat → Nat)
    (m d : Nat) (hjit : ∀ k, jit k ≤ 1000) :
    (retryWithBackoff o jit m d).attempts ≤ m ∧
      (retryWithBackoff o jit m d).delays =
        (List.range (retryWithBackoff o jit m d).delays.length).map
          (fun k => d * 2 ^ k + jit k) ∧
      (∀ k, d * 2 ^ k ≤ d * 2 ^ k + jit k ∧
        d * 2 ^ k + jit k ≤ d * 2 ^ k + 1000) ∧
      (∀ i, i < m → o i = .err false → (∀ j, j < i → o j = .err true) →
        (retryWithBackoff o jit m d).result = .error (some i) ∧
          (retryWithBackoff o jit m d).attempts = i + 1 ∧
          (retryWithBackoff o jit m d).delays.length = i) ∧
      (0 < m → (∀ j, j < m → o j = .err true) →
        (retryWithBackoff o jit m d).result = .error (some (m - 1)) ∧
          (retryWithBackoff o jit m d).attempts = m) := by
  refine ⟨retryGo_attempts o jit m d 0 none [] (Nat.zero_le m), ?_, ?_, ?_,
    ?_⟩
  · obtain ⟨n, _, hd⟩ := retryGo_delays o jit m d 0 none
    have hrw : retryWithBackoff o jit m d =
        retryGo o jit m d 0 none
          ((List.range 0).map (fun k => d * 2 ^ k + jit k)) := rfl
    rw [hrw, hd]
    simp
  · intro k
    exact ⟨Nat.le_add_right _ _, by have := hjit k; omega⟩
  · intro i him hfail hpre
    have h := retryGo_immediate o jit m d 0 i none [] (Nat.zero_le i) him
      hfail (fun j _ hj => hpre j hj)
    refine ⟨h.1, h.2.1, ?_⟩
    show (retryGo o jit m d 0 none []).delays.length = i
    rw [h.2.2]
    simp
  · intro hm hall
    exact retryGo_exhaust o jit m d 0 none [] hm (fun j _ hj => hall j hj)

/-- Witness for C3 at a concrete input: attempt 0 hits a rate limit, attempt
1 fails with a non-retryable error, which is propagated immediately after
exactly two attempts and one backoff delay. -/
theorem claim_C3_witness :
    (retryWithBackoff (fun i => if i = 0 then .err true else .err false)
        (fun _ => 500) 3 2000).result = .error (some 1) ∧
      (retryWithBackoff (fun i => if i = 0 then .err true else .err false)
        (fun _ => 500) 3 2000).attempts = 2 ∧
      (retryWithBackoff (fun i => if i = 0 then .err true else .err false)
        (fun _ => 500) 3 2000).delays.length = 1 := by
  have h := claim_C3_backoff_executor
    (fun i => if i = 0 then .err true else .err false) (fun _ => 500) 3 2000
    (fun k => by norm_num)
  have h4 := h.2.2.2.1 1 (by norm_num) (by norm_num)
    (fun j hj => by
      have : j = 0 := by omega
      subst this
      rfl)
  exact ⟨h4.1, h4.2.1, h4.2.2⟩

/-- The tiers attempted by `executeGo` form a block of consecutive indices
starting at `i`: the loop never revisits an index. -/
theorem executeGo_calls (o : Nat → Option String) (e : Nat → String)
    (len i c : Nat) (le : Option String) :
    ∃ n, (executeGo o e len c i le).calls = List.range' i n := by
  rw [executeGo]
  split
  next h =>
    rcases ho : o i with _ | t <;> simp only [ho]
    · obtain ⟨n, hn⟩ := executeGo_calls o e len (i + 1) i (some (e i))
      refine ⟨n + 1, ?_⟩
      show i :: (executeGo o e len i (i + 1) (some (e i))).calls =
        List.range' i (n + 1)
      rw [hn, List.range'_succ]
    · exact ⟨1, rfl⟩
  next h => exact ⟨0, rfl⟩
termination_by len - i

/-- The cursor `executeGo` leaves behind never sits below both its incoming
value and the first tier attempted. -/
theorem executeGo_cursor_ge (o : Nat → Option String) (e : Nat → String)
    (len i c : Nat) (le : Option String) :
    min c i ≤ (executeGo o e len c i le).cursor := by
  rw [executeGo]
  split
  next h =>
    rcases ho : o i with _ | t <;> simp only [ho]
    · have ih := executeGo_cursor_ge o e len (i + 1) i (some (e i))
      show min c i ≤ (executeGo o e len i (i + 1) (some (e i))).cursor
      omega
    · show min c i ≤ i
      omega
  next h =>
    show min c i ≤ c
    omega

/-- Either some tier in range answers — and the run ends successfully with
the cursor on that tier, which is also the last tier called — or the run ends
in a thrown error. -/
theorem executeGo_cases (o : Nat → Option String) (e : Nat → String)
    (len i c : Nat) (le : Option String) :
    (∃ j t, j < len ∧ o j = some t ∧
        (executeGo o e len c i le).cursor = j ∧
        (executeGo o e len c i le).result = .ok t ∧
        (executeGo o e len c i le).calls.getLast? = some j) ∨
      ∃ w, (executeGo o e len c i le).result = .error w := by
  rw [executeGo]
  split
  next h =>
    rcases ho : o i with _ | t <;> simp only [ho]
    · rcases executeGo_cases o e len (i + 1) i (some (e i)) with
        ⟨j, t, hj, hoj, hcur, hres, hlast⟩ | ⟨w, hw⟩
      · left
        refine ⟨j, t, hj, hoj, hcur, hres, ?_⟩
        show (i :: (executeGo o e len i (i + 1) (some (e i))).calls).getLast?
          = some j
        rcases hcalls : (executeGo o e len i (i + 1) (some (e i))).calls with
          _ | ⟨b, l⟩
        · rw [hcalls] at hlast
          cases hlast
        · rw [hcalls] at hlast
          rw [List.getLast?_cons_cons, hlast]
      · right
        exact ⟨w, hw⟩
    · left
      exact ⟨i, t, h, ho, rfl, rfl, rfl⟩
  next h =>
    right
    exact ⟨_, rfl⟩
termination_by len - i

/-- Whenever the loop starts inside the chain, the first tier it calls is
exactly the one the cursor points at. -/
theorem executeGo_first_call (o : Nat → Option String) (e : Nat → String)
    (len i c : Nat) (le : Option String) (h : i < len) :
    (executeGo o e len c i le).calls.head? = some i := by
  rw [executeGo]
  rcases ho : o i with _ | t <;> simp [h, ho]

/-- When every tier fails, the loop walks the whole remaining chain: it logs
one routing DEBUG and one tier-failure WARN per tier, leaves the cursor on
the last tier, and propagates the last tier's error. -/
theorem executeGo_exhaust (o : Nat → Option String) (e : Nat → String)
    (len i c : Nat) (le : Option String) (ho : ∀ j, o j = none)
    (h : i < len) :
    (executeGo o e len c i le).result = .error (e (len - 1)) ∧
      (executeGo o e len c i le).logs =
        (List.range' i (len - i)).flatMap
          (fun k => [mkRoutingLog k, mkTierFailLog k (e k)]) ∧
      (executeGo o e len c i le).cursor = len - 1 := by
  rw [executeGo]
  split
  next hlt =>
    simp only [ho i]
    by_cases hnext : i + 1 < len
    · have ih := executeGo_exhaust o e len (i + 1) i (some (e i)) ho hnext
      have hrange : List.range' i (len - i) =
          i :: List.range' (i + 1) (len - (i + 1)) := by
        have : len - i = (len - (i + 1)) + 1 := by omega
        rw [this, List.range'_succ]
      refine ⟨ih.1, ?_, ih.2.2⟩
      show mkRoutingLog i :: mkTierFailLog i (e i) ::
          (executeGo o e len i (i + 1) (some (e i))).logs =
        (List.range' i (len - i)).flatMap
          (fun k => [mkRoutingLog k, mkTierFailLog k (e k)])
      rw [hrange, List.flatMap_cons, ih.2.1]
      rfl
    · have hstop : ¬ i + 1 < len := hnext
      have hi : i = len - 1 := by omega
      have hrest : executeGo o e len i (i + 1) (some (e i)) =
          ⟨i, .error (e i), [], []⟩ := by
        rw [executeGo]
        split
        · omega
        · rfl
      refine ⟨?_, ?_, ?_⟩
      · show (executeGo o e len i (i + 1) (some (e i))).result =
          .error (e (len - 1))
        rw [hrest, hi]
      · show mkRoutingLog i :: mkTierFailLog i (e i) ::
            (executeGo o e len i (i + 1) (some (e i))).logs =
          (List.range' i (len - i)).flatMap
            (fun k => [mkRoutingLog k, mkTierFailLog k (e k)])
        rw [hrest]
        have : len - i = 1 := by omega
        rw [this, List.range'_succ]
        rfl
      · show (executeGo o e len i (i + 1) (some (e i))).cursor = len - 1
        rw [hrest, hi]
  next hlt => omega
termination_by len - i

/-- The WARN entries among the exhaustion logs are exactly one tier-failure
entry per exhausted tier, in order. -/
theorem warn_filter_flatMap (e : Nat → String) (ks : List Nat) :
    ((ks.flatMap (fun k => [mkRoutingLog k, mkTierFailLog k (e k)])).filter
        (fun l => l.level == .WARN)) =
      ks.map (fun k => mkTierFailLog k (e k)) := by
  induction ks with
  | nil => rfl
  | cons a ks ih =>
    rw [List.flatMap_cons, List.filter_append, ih]
    rfl

/-- No entry among the exhaustion logs carries the ERROR level. -/
theorem no_error_flatMap (e : Nat → String) (ks : List Nat) (l : LogRec)
    (hl : l ∈ ks.flatMap (fun k => [mkRoutingLog k, mkTierFailLog k (e k)])) :
    l.level ≠ .ERROR := by
  induction ks with
  | nil => cases hl
  | cons a ks ih =>
    rw [List.flatMap_cons, List.mem_append] at hl
    rcases hl with hl | hl
    · simp only [List.mem_cons, List.not_mem_nil, or_false] at hl
      rcases hl with h | h <;> subst h <;>
        simp [mkRoutingLog, mkTierFailLog]
    · exact ih hl

/-- C2: within one `execute` invocation the cursor only moves forward through
a block of consecutive tiers — no tier marked exhausted is ever called again
(the call list is duplicate-free), the final cursor never sits below the
starting one, and on success the cursor is left on the tier that answered
(the last one called), so any subsequent `execute` invocation starts its
calls from that tier, not from tier 0. -/
theorem claim_C2_router_cursor (o : Nat → Option String) (e : Nat → String)
    (start : Nat) :
    (∃ n, (execute o e start).calls = List.range' start n) ∧
      (execute o e start).calls.Nodup ∧
      start ≤ (execute o e start).cursor ∧
      (∀ t, (execute o e start).result = .ok t →
        o (execute o e start).cursor = some t ∧
          (execute o e start).calls.getLast? =
            some (execute o e start).cursor) ∧
      (∀ t, (execute o e start).result = .ok t →
        ∀ (o2 : Nat → Option String) (e2 : Nat → String),
          (execute o2 e2 (execute o e start).cursor).calls.head? =
            some (execute o e start).cursor) := by
  unfold execute
  have hcalls :=
    executeGo_calls o e LLM_FALLBACK_CHAIN.length start start none
  have hcur :=
    executeGo_cursor_ge o e LLM_FALLBACK_CHAIN.length start start none
  have hcases :=
    executeGo_cases o e LLM_FALLBACK_CHAIN.length start start none
  refine ⟨hcalls, ?_, ?_, ?_, ?_⟩
  · obtain ⟨n, hn⟩ := hcalls
    rw [hn]
    exact List.nodup_range' _ _
  · simpa using hcur
  · intro t ht
    rcases hcases with ⟨j, t', hj, hoj, hcur', hres, hlast⟩ | ⟨w, hw⟩
    · rw [ht] at hres
      cases hres
      rw [hcur']
      exact ⟨hoj, hlast⟩
    · rw [ht] at hw
      cases hw
  · intro t ht o2 e2
    rcases hcases with ⟨j, t', hj, hoj, hcur', hres, hlast⟩ | ⟨w, hw⟩
    · rw [hcur']
      exact executeGo_first_call o2 e2 LLM_FALLBACK_CHAIN.length j j none hj
    · rw [ht] at hw
      cases hw

/-- Witness for C2 at a concrete input: tier 0 exhausts its retries and tier
1 answers; the cursor is left on tier 1, which is the last tier called. -/
theorem claim_C2_witness :
    (fun i => if i = 1 then some "plan" else none)
        ((execute (fun i => if i = 1 then some "plan" else none)
          (fun _ => "boom") 0).cursor) = some "plan" ∧
      (execute (fun i => if i = 1 then some "plan" else none)
          (fun _ => "boom") 0).calls.getLast? =
        some ((execute (fun i => if i = 1 then some "plan" else none)
          (fun _ => "boom") 0).cursor) := by
  have h := claim_C2_router_cursor
    (fun i => if i = 1 then some "plan" else none) (fun _ => "boom") 0
  have hres : (execute (fun i => if i = 1 then some "plan" else none)
      (fun _ => "boom") 0).result = .ok "plan" := by
    have hconv : execute (fun i => if i = 1 then some "plan" else none)
        (fun _ => "boom") 0 =
        executeGo (fun i => if i = 1 then some "plan" else none)
          (fun _ => "boom") 3 0 0 none := rfl
    rw [hconv, executeGo]
    norm_num
    rw [executeGo]
    norm_num
  exact h.2.2.2.1 "plan" hres

/-- C7 (amended): if every tier from the current cursor on exhausts its
backoff attempts, `execute` emits exactly one WARN entry per exhausted tier
(each referencing that tier) and, once no tiers remain, re-raises the error
of the *last* tier (not an aggregate of all of them); the planning call sits
outside the orchestrator's `try`, so the run fails terminally while the
accumulated log contains no ERROR-tagged entry — the exhausted tiers are
referenced only by the WARN entries. -/
theorem claim_C7_tier_exhaustion (o : Nat → Option String)
    (e : Nat → String) (start : Nat) (ho : ∀ j, o j = none)
    (hstart : start < 3) :
    (execute o e start).result = .error (e 2) ∧
      (execute o e start).logs =
        (List.range' start (3 - start)).flatMap
          (fun k => [mkRoutingLog k, mkTierFailLog k (e k)]) ∧
      (execute o e start).logs.filter (fun l => l.level == .WARN) =
        (List.range' start (3 - start)).map
          (fun k => mkTierFailLog k (e k)) ∧
      ∀ l ∈ planningFailureLogs o e start, l.level ≠ .ERROR := by
  have hconv : execute o e start = executeGo o e 3 start start none := rfl
  have hex := executeGo_exhaust o e 3 start start none ho (by omega)
  refine ⟨?_, ?_, ?_, ?_⟩
  · rw [hconv]
    exact hex.1
  · rw [hconv]
    exact hex.2.1
  · rw [hconv, hex.2.1]
    exact warn_filter_flatMap e _
  · intro l hl
    unfold planningFailureLogs at hl
    rcases List.mem_cons.1 hl with h | h
    · subst h
      simp [groundingDoneLog]
    · rw [hconv, hex.2.1] at h
      exact no_error_flatMap e _ l h

/-- Witness for C7 at a concrete input: all three tiers fail; the raised
error is the third tier's error and the failing run's log holds no
ERROR-level entry. -/
theorem claim_C7_witness :
    (execute (fun _ => none) (fun i => "boom " ++ toString i) 0).result =
        .error ("boom " ++ toString 2) ∧
      ∀ l ∈ planningFailureLogs (fun _ => none)
          (fun i => "boom " ++ toString i) 0, l.level ≠ .ERROR := by
  have h := claim_C7_tier_exhaustion (fun _ => none)
    (fun i => "boom " ++ toString i) 0 (fun _ => rfl) (by norm_num)
  exact ⟨h.1, h.2.2.2⟩

/-- Counterexample to C7 as stated: in a run whose planning call exhausts
every tier, the accumulated log contains no entry tagged ERROR at all (the
per-tier entries are WARN), and the raised error is exactly the last tier's
error message rather than an aggregate — the claimed ERROR log entry
referencing each exhausted tier does not exist. -/
theorem counterexample_C7 :
    (execute (fun _ => none) (fun _ => "429 RESOURCE_EXHAUSTED") 0).result =
        .error "429 RESOURCE_EXHAUSTED" ∧
      ∀ l ∈ planningFailureLogs (fun _ => none)
          (fun _ => "429 RESOURCE_EXHAUSTED") 0, l.level ≠ .ERROR := by
  have hconv : execute (fun _ => none) (fun _ => "429 RESOURCE_EXHAUSTED") 0 =
      executeGo (fun _ => none) (fun _ => "429 RESOURCE_EXHAUSTED")
        3 0 0 none := rfl
  have hex := executeGo_exhaust (fun _ => none)
    (fun _ => "429 RESOURCE_EXHAUSTED") 3 0 0 none (fun _ => rfl)
    (by norm_num)
  refine ⟨?_, ?_⟩
  · rw [hconv]
    exact hex.1
  · intro l hl
    unfold planningFailureLogs at hl
    rcases List.mem_cons.1 hl with h | h
    · subst h
      simp [groundingDoneLog]
    · rw [hconv, hex.2.1] at h
      exact no_error_flatMap _ _ l h

/-- Below its target, one unrolling of the extension loop is exactly one
`extensionStep` on the current iteration's outcome. -/
theorem extensionLoop_unfold (target : Nat) (outcomes : Nat → ExtOutcome)
    (s : ChainState) (i : Nat) (h : s.accumulatedSeconds < target) :
    extensionLoop target outcomes s i =
      match extensionStep s (outcomes i) with
      | .next s' => extensionLoop target outcomes s' (i + 1)
      | .exitMastering s' => .mastering s'
      | .exitFatal s' => .fatal s' := by
  conv_lhs => rw [extensionLoop]
  rw [if_neg (by omega)]
  cases ho : outcomes i <;> simp only [extensionStep]
  case success => split_ifs <;> rfl
  case notReady => split_ifs <;> rfl
  case failure => split_ifs <;> rfl

/-- A `mastering` exit of the extension loop accumulated at least as much as
the entry state and reached the target or the 1800-second safety cap. -/
theorem extensionLoop_mastering_spec (target : Nat)
    (outcomes : Nat → ExtOutcome) (s : ChainState) (i : Nat)
    (s' : ChainState) (h : extensionLoop target outcomes s i = .mastering s') :
    s.accumulatedSeconds ≤ s'.accumulatedSeconds ∧
      (target ≤ s'.accumulatedSeconds ∨ 1800 ≤ s'.accumulatedSeconds) := by
  rw [extensionLoop] at h
  split at h
  next htar =>
    cases h
    exact ⟨le_refl _, Or.inl htar⟩
  next htar =>
    split at h
    · simp at h
    · split at h
      next hcap =>
        cases h
        refine ⟨?_, Or.inr ?_⟩
        · show s.accumulatedSeconds ≤ s.accumulatedSeconds + 7
          omega
        · show 1800 ≤ s.accumulatedSeconds + 7
          omega
      next hcap =>
        have ih := extensionLoop_mastering_spec target outcomes
          ⟨s.accumulatedSeconds + 7, s.segmentIndex + 1, 0⟩ (i + 1) s' h
        have h1 : s.accumulatedSeconds + 7 ≤ s'.accumulatedSeconds := ih.1
        exact ⟨by omega, ih.2⟩
    · split at h
      next hstreak => simp at h
      next hstreak =>
        have ih := extensionLoop_mastering_spec target outcomes
          ⟨s.accumulatedSeconds, s.segmentIndex, s.errorStreak + 1⟩ (i + 1)
          s' h
        exact ⟨ih.1, ih.2⟩
    · split at h
      next hstreak => simp at h
      next hstreak =>
        split at h
        next hcap =>
          cases h
          refine ⟨le_refl _, Or.inr ?_⟩
          show 1800 ≤ s.accumulatedSeconds
          omega
        next hcap =>
          have ih := extensionLoop_mastering_spec target outcomes
            ⟨s.accumulatedSeconds, s.segmentIndex, s.errorStreak + 1⟩ (i + 1)
            s' h
          exact ⟨ih.1, ih.2⟩
termination_by (1800 - s.accumulatedSeconds) * 17 + (16 - s.errorStreak)
decreasing_by all_goals omega

/-- A `fatal` exit of the extension loop accumulated at least as much as the
entry state and was caused either by an error streak beyond the ceiling or by
a lost video continuation reference. -/
theorem extensionLoop_fatal_spec (target : Nat) (outcomes : Nat → ExtOutcome)
    (s : ChainState) (i : Nat) (s' : ChainState)
    (h : extensionLoop target outcomes s i = .fatal s') :
    s.accumulatedSeconds ≤ s'.accumulatedSeconds ∧
      (10 < s'.errorStreak ∨ ∃ j, outcomes j = .refLost) := by
  rw [extensionLoop] at h
  split at h
  next htar => simp at h
  next htar =>
    split at h
    · rename_i ho
      cases h
      exact ⟨le_refl _, Or.inr ⟨i, ho⟩⟩
    · split at h
      next hcap => simp at h
      next hcap =>
        have ih := extensionLoop_fatal_spec target outcomes
          ⟨s.accumulatedSeconds + 7, s.segmentIndex + 1, 0⟩ (i + 1) s' h
        have h1 : s.accumulatedSeconds + 7 ≤ s'.accumulatedSeconds := ih.1
        exact ⟨by omega, ih.2⟩
    · split at h
      next hstreak =>
        cases h
        refine ⟨le_refl _, Or.inl ?_⟩
        show 10 < s.errorStreak + 2
        omega
      next hstreak =>
        have ih := extensionLoop_fatal_spec target outcomes
          ⟨s.accumulatedSeconds, s.segmentIndex, s.errorStreak + 1⟩ (i + 1)
          s' h
        exact ⟨ih.1, ih.2⟩
    · split at h
      next hstreak =>
        cases h
        refine ⟨le_refl _, Or.inl ?_⟩
        show 10 < s.errorStreak + 1
        omega
      next hstreak =>
        split at h
        next hcap => simp at h
        next hcap =>
          have ih := extensionLoop_fatal_spec target outcomes
            ⟨s.accumulatedSeconds, s.segmentIndex, s.errorStreak + 1⟩ (i + 1)
            s' h
          exact ⟨ih.1, ih.2⟩
termination_by (1800 - s.accumulatedSeconds) * 17 + (16 - s.errorStreak)
decreasing_by all_goals omega

/-- C1 (amended): the extension loop terminates for every input (totality of
`extensionLoop`, whose measure decreases on every continuing iteration);
accumulated duration never decreases, per step and across the whole loop; a
`mastering` exit — proceeding to the mastering stage with whatever was
accumulated — happens exactly when the accumulated duration has reached the
target or the 1800-second safety ceiling; and a `fatal` exit is caused either
by a consecutive-error streak beyond a ceiling (always leaving a streak above
10) or by a lost video continuation reference — the latter being an exit the
original claim does not list. -/
theorem claim_C1_extension_loop (target : Nat) (outcomes : Nat → ExtOutcome)
    (s : ChainState) (i : Nat) :
    (match extensionLoop target outcomes s i with
      | .mastering s' => s.accumulatedSeconds ≤ s'.accumulatedSeconds ∧
          (target ≤ s'.accumulatedSeconds ∨ 1800 ≤ s'.accumulatedSeconds)
      | .fatal s' => s.accumulatedSeconds ≤ s'.accumulatedSeconds ∧
          (10 < s'.errorStreak ∨ ∃ j, outcomes j = .refLost)) ∧
      (∀ (st : ChainState) (o : ExtOutcome),
        match extensionStep st o with
        | .next s' => st.accumulatedSeconds ≤ s'.accumulatedSeconds
        | .exitMastering s' => st.accumulatedSeconds ≤ s'.accumulatedSeconds
        | .exitFatal s' => st.accumulatedSeconds ≤ s'.accumulatedSeconds) ∧
      (s.accumulatedSeconds < target →
        extensionLoop target outcomes s i =
          match extensionStep s (outcomes i) with
          | .next s' => extensionLoop target outcomes s' (i + 1)
          | .exitMastering s' => .mastering s'
          | .exitFatal s' => .fatal s') := by
  refine ⟨?_, ?_, fun h => extensionLoop_unfold target outcomes s i h⟩
  · rcases hres : extensionLoop target outcomes s i with s' | s'
    · exact extensionLoop_mastering_spec _ _ _ _ _ hres
    · exact extensionLoop_fatal_spec _ _ _ _ _ hres
  · intro st o
    cases o
    case success =>
      simp only [extensionStep]
      split_ifs <;> exact Nat.le_add_right _ _
    case notReady =>
      simp only [extensionStep]
      split_ifs <;> exact le_refl _
    case failure =>
      simp only [extensionStep]
      split_ifs <;> exact le_refl _
    case refLost => exact le_refl _

/-- Witness for C1 at a concrete input: below a 2000-second target, a
successful iteration at 1795 accumulated seconds crosses the 1800-second
safety ceiling and the loop exits to mastering with 1802 seconds. -/
theorem claim_C1_witness :
    extensionLoop 2000 (fun _ => ExtOutcome.success) ⟨1795, 3, 0⟩ 0 =
      .mastering ⟨1802, 4, 0⟩ := by
  have h := claim_C1_extension_loop 2000 (fun _ => ExtOutcome.success)
    ⟨1795, 3, 0⟩ 0
  have h3 := h.2.2 (by show (1795 : Nat) < 2000; norm_num)
  rw [h3]
  rfl

/-- Counterexample to C1 as stated: when the first extension iteration finds
no video reference on the previous operation, the loop exits fatally with an
error streak of 0 and 5 accumulated seconds — neither the target, nor the
1800-second ceiling, nor any consecutive-error-streak ceiling was reached,
so the claim's enumeration of loop exits misses this case. -/
theorem counterexample_C1 :
    extensionLoop 60 (fun _ => ExtOutcome.refLost) initialChainState 0 =
        .fatal initialChainState ∧
      initialChainState.errorStreak = 0 ∧
      initialChainState.accumulatedSeconds = 5 := by
  refine ⟨?_, rfl, rfl⟩
  rw [extensionLoop]
  simp [initialChainState]

/-- An occurrence reported by `findSub` really is a match at that offset. -/
theorem findSub_isPrefixOf (pat : List Char) :
    ∀ (l : List Char) (i : Nat), findSub pat l = some i →
      pat.isPrefixOf (l.drop i) = true := by
  intro l
  induction l with
  | nil =>
    intro i h
    simp only [findSub] at h
    split at h
    next hyes =>
      cases h
      simpa using hyes
    next => cases h
  | cons c rest ih =>
    intro i h
    simp only [findSub] at h
    split at h
    next hyes =>
      cases h
      simpa using hyes
    next =>
      cases hfs : findSub pat rest with
      | none =>
        rw [hfs] at h
        cases h
      | some j =>
        rw [hfs] at h
        simp only [Option.map_some'] at h
        cases h
        simp only [List.drop_succ_cons]
        exact ih j hfs

/-- When `findSub` reports no occurrence, the pattern matches at no offset. -/
theorem findSub_none_no_occurrence (pat : List Char) :
    ∀ (l : List Char), findSub pat l = none →
      ∀ i, pat.isPrefixOf (l.drop i) = false := by
  intro l
  induction l with
  | nil =>
    intro h i
    simp only [findSub] at h
    split at h
    next => cases h
    next hno =>
      rw [List.drop_nil]
      exact (Bool.not_eq_true _) ▸ hno
  | cons c rest ih =>
    intro h i
    simp only [findSub] at h
    split at h
    next => cases h
    next hno =>
      have hnone : findSub pat rest = none := by
        cases hfs : findSub pat rest with
        | none => rfl
        | some j =>
          rw [hfs] at h
          cases h
      cases i with
      | zero =>
        rw [List.drop_zero]
        exact (Bool.not_eq_true _) ▸ hno
      | succ i =>
        simp only [List.drop_succ_cons]
        exact ih hnone i

/-- A match of a concatenated pattern is in particular a match of its first
part. -/
theorem isPrefixOf_append_left (p q : List Char) :
    ∀ (x : List Char), (p ++ q).isPrefixOf x = true →
      p.isPrefixOf x = true := by
  induction p with
  | nil =>
    intro x _
    simp
  | cons a p ih =>
    intro x h
    cases x with
    | nil => simp at h
    | cons b x =>
      have h' : (a == b && (p ++ q).isPrefixOf x) = true := h
      show (a == b && p.isPrefixOf x) = true
      simp only [Bool.and_eq_true] at h' ⊢
      exact ⟨h'.1, ih x h'.2⟩

/-- Without any backtick fence in the text, neither fence regex matches. -/
theorem fence_matches_none (r : List Char)
    (h : findSub ticksPat r = none) :
    matchFenceJson r = none ∧ matchFenceAny r = none := by
  have hjson : findSub fenceJsonPat r = none := by
    cases hfs : findSub fenceJsonPat r with
    | none => rfl
    | some i =>
      exfalso
      have hp := findSub_isPrefixOf _ _ _ hfs
      have hsplit : fenceJsonPat = ticksPat ++ "json\n".toList := by decide
      rw [hsplit] at hp
      have hticks := isPrefixOf_append_left _ _ _ hp
      rw [findSub_none_no_occurrence ticksPat r h i] at hticks
      cases hticks
  constructor
  · rw [matchFenceJson, hjson]
  · rw [matchFenceAny, h]

/-- A list whose head fails the predicate survives `dropWhile` whole. -/
theorem dropWhile_eq_self_of_head (p : Char → Bool) (l : List Char)
    (c : Char) (hc : l.head? = some c) (hpc : p c = false) :
    l.dropWhile p = l := by
  cases l with
  | nil => cases hc
  | cons a rest =>
    simp only [List.head?_cons, Option.some.injEq] at hc
    subst hc
    exact List.dropWhile_cons_of_neg (by simp [hpc])

/-- A list whose last element fails the predicate survives `dropTrailing`
whole. -/
theorem dropTrailing_eq_self_of_getLast (p : Char → Bool) (l : List Char)
    (c : Char) (hc : l.getLast? = some c) (hpc : p c = false) :
    dropTrailing p l = l := by
  unfold dropTrailing
  rw [dropWhile_eq_self_of_head p l.reverse c (by
        rw [List.head?_reverse]
        exact hc) hpc,
    List.reverse_reverse]

/-- An opening bracket is not trimmed as whitespace. -/
theorem openBracket_not_ws (c : Char) (h : isOpenBracket c = true) :
    jsWhitespace c = false := by
  simp only [isOpenBracket, Bool.or_eq_true, decide_eq_true_eq] at h
  rcases h with h | h <;> subst h <;> decide

/-- A closing bracket is not trimmed as whitespace. -/
theorem closeBracket_not_ws (c : Char) (h : isCloseBracket c = true) :
    jsWhitespace c = false := by
  simp only [isCloseBracket, Bool.or_eq_true, decide_eq_true_eq] at h
  rcases h with h | h <;> subst h <;> decide

/-- A nonempty output of the bracket-trimming stage starts with `{` or `[`
and ends with `}` or `]`. -/
theorem stripToBrackets_shape (body : List Char)
    (h : stripToBrackets body ≠ []) :
    (∃ c, (stripToBrackets body).head? = some c ∧ isOpenBracket c = true) ∧
      ∃ c, (stripToBrackets body).getLast? = some c ∧
        isCloseBracket c = true := by
  unfold stripToBrackets at h ⊢
  set m := body.dropWhile (fun c => !(isOpenBracket c)) with hm
  have hconv : dropTrailing (fun c => !(isCloseBracket c)) m =
      List.rdropWhile (fun c => !(isCloseBracket c)) m := rfl
  rw [hconv] at h ⊢
  constructor
  · -- the result is an initial segment of m, whose head is an open bracket
    obtain ⟨t, ht⟩ := List.rdropWhile_prefix
      (p := fun c => !(isCloseBracket c)) (l := m)
    cases hres : List.rdropWhile (fun c => !(isCloseBracket c)) m with
    | nil => exact absurd hres h
    | cons c rest =>
      refine ⟨c, by simp, ?_⟩
      have hmhead : m.head? = some c := by
        rw [← ht, hres]
        simp
      have := List.head?_dropWhile_not (fun c => !(isOpenBracket c)) body
      rw [← hm, hmhead] at this
      simpa using this
  · -- the last element survived the closing-bracket trim
    have hlast := List.rdropWhile_last_not
      (p := fun c => !(isCloseBracket c)) (l := m) h
    refine ⟨(List.rdropWhile (fun c => !(isCloseBracket c)) m).getLast h,
      List.getLast?_eq_getLast _ h, ?_⟩
    simpa using hlast

/-- A nonempty output of the Response Normalizer starts with `{` or `[` and
ends with `}` or `]`. -/
theorem extractJsonL_shape (cs : List Char) (h : extractJsonL cs ≠ []) :
    (∃ c, (extractJsonL cs).head? = some c ∧ isOpenBracket c = true) ∧
      ∃ c, (extractJsonL cs).getLast? = some c ∧ isCloseBracket c = true := by
  unfold extractJsonL at h ⊢
  split
  · refine ⟨⟨'[', ?_, ?_⟩, ⟨']', ?_, ?_⟩⟩ <;> decide
  · rw [if_neg (by assumption)] at h
    exact stripToBrackets_shape _ h

/-- A nonempty, fence-free output of the Response Normalizer is one of its
fixed points. -/
theorem extractJsonL_fixed (r : List Char) (h1 : r ≠ [])
    (h2 : findSub ticksPat r = none)
    (hhead : ∃ c, r.head? = some c ∧ isOpenBracket c = true)
    (hlast : ∃ c, r.getLast? = some c ∧ isCloseBracket c = true) :
    extractJsonL r = r := by
  obtain ⟨co, hco, hcoB⟩ := hhead
  obtain ⟨cc, hcc, hccB⟩ := hlast
  have hfence := fence_matches_none r h2
  have hbody : fencedBody r = r := by
    unfold fencedBody
    rw [hfence.1, hfence.2, jsTrim,
      dropWhile_eq_self_of_head _ _ _ hco (openBracket_not_ws _ hcoB),
      dropTrailing_eq_self_of_getLast _ _ _ hcc (closeBracket_not_ws _ hccB)]
  unfold extractJsonL
  rw [if_neg h1, hbody]
  unfold stripToBrackets
  rw [dropWhile_eq_self_of_head _ _ _ hco (by simp [hcoB]),
    dropTrailing_eq_self_of_getLast _ _ _ hcc (by simp [hccB])]

/-- C8 (amended): the Response Normalizer is a total function (never throws,
always returns a string), and it is idempotent on every input whose first
normalization is nonempty and contains no ``` fence; the counterexample shows
idempotence fails in general, because an empty first output is rewritten to
"[]" by the second pass. -/
theorem claim_C8_normalizer_idempotent (s : String)
    (h1 : extractJson s ≠ "")
    (h2 : findSub ticksPat (extractJson s).data = none) :
    extractJson (extractJson s) = extractJson s := by
  have h1' : extractJsonL s.data ≠ [] := by
    intro hl
    apply h1
    show String.mk (extractJsonL s.data) = ""
    rw [hl]
  have hshape := extractJsonL_shape s.data h1'
  have hfix := extractJsonL_fixed (extractJsonL s.data) h1' h2 hshape.1
    hshape.2
  show String.mk (extractJsonL (extractJsonL s.data)) =
    String.mk (extractJsonL s.data)
  rw [hfix]

/-- Witness for C8 at a concrete input: prose around a bracketed payload
normalizes to the payload, and a second normalization is a no-op. -/
theorem claim_C8_witness :
    extractJson (extractJson "see [1, 2]") = extractJson "see [1, 2]" :=
  claim_C8_normalizer_idempotent "see [1, 2]" (by decide) (by decide)

/-- Counterexample to C8 as stated: on input "abc" the normalizer returns the
empty string, and re-running it on that output returns "[]" — already-
normalized text does not round-trip unchanged. -/
theorem counterexample_C8 :
    extractJson (extractJson "abc") ≠ extractJson "abc" ∧
      extractJson "abc" = "" ∧ extractJson "" = "[]" := by
  refine ⟨?_, ?_, ?_⟩ <;> decide

/-- C4 (amended): when `JSON.parse` of the normalized planner response
throws — and also when it yields `null`, whose `chapters` access throws a
`TypeError` into the same `catch` — the planner substitutes exactly the
single static recovery chapter (titled "Overview", independent of the product
facts and grounding records); but a response parsing to a non-array object
without a `chapters` field yields an *empty* chapter list with no fallback,
so the chapter sequence is not always non-empty. -/
theorem claim_C4_planner_fallback (r : String) :
    (jsonParse (extractJson r) = .error () →
        plannerChapters r = .jarr [fallbackChapterPlan]) ∧
      (jsonParse (extractJson r) = .ok .jnull →
        plannerChapters r = .jarr [fallbackChapterPlan]) ∧
      (∀ fields, jsonParse (extractJson r) = .ok (.jobj fields) →
        jsProp fields "chapters" = none → plannerChapters r = .jarr []) := by
  refine ⟨?_, ?_, ?_⟩
  · intro h
    unfold plannerChapters
    rw [h]
  · intro h
    unfold plannerChapters
    rw [h]
  · intro fields h hnone
    unfold plannerChapters
    rw [h]
    dsimp only
    rw [hnone]

/-- Witness for C4 at a concrete input: the planner response "garbage"
normalizes to the empty string, fails `JSON.parse`, and is replaced by the
single static recovery chapter. -/
theorem claim_C4_witness :
    plannerChapters "garbage" = .jarr [fallbackChapterPlan] ∧
      jsonParse (extractJson "garbage") = .error () := by
  have h : jsonParse (extractJson "garbage") = .error () := rfl
  exact ⟨(claim_C4_planner_fallback "garbage").1 h, h⟩

/-- Counterexample to C4 as stated: a planner response that is valid JSON of
the wrong shape (an object with no chapters array — a parse failure in the
claim's sense) is not replaced by the fallback plan: the pipeline proceeds
with an empty chapter sequence. -/
theorem counterexample_C4 :
    plannerChapters "\x7b\x7d" = .jarr [] ∧
      JVal.jarr [] ≠ JVal.jarr [fallbackChapterPlan] := by
  constructor
  · rfl
  · intro hcon
    simp at hcon

end VisionNarrate
